import Mathlib

/-!
Verification development for the aur-fetch repository (src/src/fetch.rs).

The Rust code drives an external `git` binary; we embed each function of
`fetch.rs` as a Lean function over an abstract repository state.  Commit
ids and tree ids are natural numbers.  A `git` command that the code runs
is modelled by its effect on the state and by whether it succeeds, following
git's documented behaviour for the exact argument lists the source passes:

* `rev-parse HEAD` always succeeds and returns the checked-out commit;
* `rev-parse --verify AUR_SEEN` succeeds exactly when the `AUR_SEEN`
  reference exists (`git_has_seen`);
* `rev-parse AUR_SEEN HEAD@{u}` fails when the upstream reference does not
  resolve, otherwise prints both commit ids;
* `update-ref AUR_SEEN HEAD` points the seen marker at the current head;
* `reset --hard X` moves the checked-out commit to `X` and clears any
  staged/in-progress merge state;
* `merge --no-edit --no-ff --no-commit` (no ref argument) merges the
  upstream reference: it fails when upstream does not resolve or when the
  merge conflicts (the `mergeOk` field of the state is the conflict oracle),
  and in both the success and the conflict case it leaves merge state in
  the working tree;
* `merge-base --is-ancestor A B` succeeds exactly when `A` resolves and is
  an ancestor of `B` (the `anc` field is the ancestry oracle);
* `log ..HEAD@{u}` and `diff ... HEAD@{u}` fail when upstream does not
  resolve;
* a diff printed between two trees is empty exactly when the trees are
  equal; `ftree c` is the tree of commit `c` with the `.SRCINFO` pathspec
  exclusion already applied, `emptyTree` is the (filtered) well-known empty
  tree `4b825dc642cb6eb9a060e54bf8d69288fbee4904`, and `mergedTree v u` is
  the staged index tree produced by merging upstream `u` into `v`.
-/

/-- Errors of the crate, modelling `Error::CommandFailed` with a short tag
identifying the failing invocation. -/
inductive GitErr where
  | cmdFailed (info : String)
  deriving DecidableEq

/-- Abstract on-disk state of one cloned repository, together with the
oracles (ancestry, trees, merge-conflict outcome) that determine what the
git commands run by `fetch.rs` do on it. -/
structure RepoState where
  /-- the checked-out commit (`HEAD`) -/
  head : Nat
  /-- target of the `AUR_SEEN` reference, `none` when it does not exist -/
  seen : Option Nat
  /-- target of the upstream reference `HEAD@\x7bu\x7d`, `none` when it does
  not resolve -/
  upstream : Option Nat
  /-- `anc a b`: `a` is an ancestor of `b` in the object store -/
  anc : Nat → Nat → Bool
  /-- tree of a commit, with the `.SRCINFO` exclusion applied -/
  ftree : Nat → Nat
  /-- staged index tree after merging upstream (second argument) into the
  first argument -/
  mergedTree : Nat → Nat → Nat
  /-- the filtered empty tree `4b825dc642cb6eb9a060e54bf8d69288fbee4904` -/
  emptyTree : Nat
  /-- a non-committed merge is staged / in progress in the working tree -/
  merged : Bool
  /-- oracle: the non-committing merge of upstream succeeds (no conflicts) -/
  mergeOk : Bool
  /-- `git diff --exit-code` reports uncommitted changes -/
  dirty : Bool
  /-- `git config user.name` succeeds -/
  hasUserName : Bool
  /-- `git config user.email` succeeds -/
  hasUserEmail : Bool

/-- `git_head` (fetch.rs:604): `rev-parse HEAD`, always succeeds. -/
def git_head (s : RepoState) : Nat := s.head

/-- `git_has_seen` (fetch.rs:595): `rev-parse --verify AUR_SEEN` succeeds
exactly when the seen marker exists; the function never fails. -/
def git_has_seen (s : RepoState) : Bool := s.seen.isSome

/-- `git_mark_seen` (fetch.rs:530): `update-ref AUR_SEEN HEAD`. -/
def git_mark_seen (s : RepoState) : RepoState := { s with seen := some s.head }

/-- Success of `merge-base --is-ancestor HEAD@\x7bu\x7d AUR_SEEN`: upstream
must resolve and be an ancestor of the seen marker. -/
def isAncestorOk (s : RepoState) : Bool :=
  match s.upstream, s.seen with
  | some u, some v => s.anc u v
  | _, _ => false

/-- `git_unseen` (fetch.rs:550): with a seen marker, unseen exactly when the
is-ancestor check errors out; without one, unseen. -/
def git_unseen (s : RepoState) : Bool :=
  if git_has_seen s then !(isAncestorOk s) else true

/-- `git_has_diff` (fetch.rs:565): without a seen marker, `Ok(false)`; with
one, `rev-parse AUR_SEEN HEAD@\x7bu\x7d` (propagated by `?` when upstream
does not resolve) and comparison of the two printed commit ids. -/
def git_has_diff (s : RepoState) : Except GitErr Bool :=
  match s.seen with
  | none => .ok false
  | some v =>
    match s.upstream with
    | none => .error (GitErr.cmdFailed "rev-parse")
    | some u => .ok (v != u)

/-- Output of `git log ..HEAD@\x7bu\x7d`: the commits reachable from `tip`
and not from `base`. -/
inductive LogOut where
  | range (base tip : Nat)
  deriving DecidableEq

/-- `git_log` (fetch.rs:585): `log ..HEAD@\x7bu\x7d`, failing when upstream
does not resolve. -/
def git_log (s : RepoState) : Except GitErr LogOut :=
  match s.upstream with
  | none => .error (GitErr.cmdFailed "log")
  | some u => .ok (LogOut.range s.head u)

/-- Output of a `git diff` invocation: the two trees it compares. -/
inductive DiffOut where
  | between (src dst : Nat)
  deriving DecidableEq

/-- A printed diff is non-empty exactly when the compared trees differ. -/
def diffNonEmpty : DiffOut → Bool
  | .between a b => a != b

/-- Effect of `reset --hard` to a commit: moves `HEAD` there and clears any
staged or in-progress merge. -/
def resetHard (s : RepoState) (target : Nat) : RepoState :=
  { s with head := target, merged := false }

/-- Effect of the bare `merge --no-edit --no-ff --no-commit` run by
`git_diff`/`show_git_diff`: merges the upstream reference.  Returns the
upstream commit on success and `none` on failure (unresolvable upstream, or
conflicts per the `mergeOk` oracle); a conflicting merge leaves the
conflicted merge state in the working tree. -/
def mergeUpstream (s : RepoState) : RepoState × Option Nat :=
  match s.upstream with
  | none => (s, none)
  | some u =>
    if s.mergeOk then ({ s with merged := true }, some u)
    else ({ s with merged := true }, none)

/-- `git_diff` (fetch.rs:610).  Mirrors the source's control flow: record
`head`; with a seen marker, `reset --hard AUR_SEEN` then the non-committing
merge then `diff --cached` (each followed by `?`, so a failure propagates
at once); without one, the empty-tree diff against upstream (`?` again);
only after all of those succeed, the restoring `reset --hard head`. -/
def git_diff (s : RepoState) : RepoState × Except GitErr DiffOut :=
  let head := git_head s
  match s.seen with
  | some v =>
    let s1 := resetHard s v
    match mergeUpstream s1 with
    | (s2, none) => (s2, .error (GitErr.cmdFailed "merge"))
    | (s2, some u) =>
      let out := DiffOut.between (s2.ftree v) (s2.mergedTree v u)
      (resetHard s2 head, .ok out)
  | none =>
    match s.upstream with
    | none => (s, .error (GitErr.cmdFailed "diff"))
    | some u => (resetHard s head, .ok (DiffOut.between s.emptyTree (s.ftree u)))

/-- `show_git_diff` (fetch.rs:670): identical command sequence to
`git_diff`, streaming the diff instead of capturing it. -/
def show_git_diff (s : RepoState) : RepoState × Except GitErr Unit :=
  let head := git_head s
  match s.seen with
  | some v =>
    let s1 := resetHard s v
    match mergeUpstream s1 with
    | (s2, none) => (s2, .error (GitErr.cmdFailed "merge"))
    | (s2, some _) => (resetHard s2 head, .ok ())
  | none =>
    match s.upstream with
    | none => (s, .error (GitErr.cmdFailed "diff"))
    | some _ => (resetHard s head, .ok ())

/-- `git_commit` (fetch.rs:715): check the configured identity, then if
`diff --exit-code` reports changes, commit with the caller's message when
an identity is configured and with the fixed message "AUR" under the
synthetic `aur`/`aur` identity otherwise.  The result is the message of the
commit that was created, if any. -/
def git_commit (s : RepoState) (message : String) : Option String :=
  let has_user := s.hasUserName && s.hasUserEmail
  if s.dirty then
    if has_user then some message else some "AUR"
  else none

/-- Whether an `Except` is a success, as Rust's `Result::is_ok`. -/
def isOkE {ε α : Type} : Except ε α → Bool
  | .ok _ => true
  | .error _ => false

/-!
Process spawning.  A spawned process is modelled by its program, working
directory, argument list and the environment overrides explicitly set on
it (`Command::env` calls); `fetch.rs` builds commands in three places:
`git_command` (fetch.rs:475), `show_git_command` (fetch.rs:503) and
`download_pkg` (fetch.rs:210).
-/

/-- A `std::process::Command` as `fetch.rs` configures it. -/
structure SpawnedCmd where
  program : String
  cwd : String
  args : List String
  env : List (String × String)
  deriving DecidableEq

/-- The command built by `git_command` (fetch.rs:475): global flags, then
the arguments, with `GIT_TERMINAL_PROMPT=0` in the environment. -/
def git_command (git cwd : String) (flags args : List String) : SpawnedCmd :=
  { program := git, cwd := cwd, args := flags ++ args,
    env := [("GIT_TERMINAL_PROMPT", "0")] }

/-- The command built by `show_git_command` (fetch.rs:503): same
configuration as `git_command`, spawned with inherited stdio. -/
def show_git_command (git cwd : String) (flags args : List String) : SpawnedCmd :=
  { program := git, cwd := cwd, args := flags ++ args,
    env := [("GIT_TERMINAL_PROMPT", "0")] }

/-- The command built by `download_pkg` (fetch.rs:210-240): `fetch -v` in
the package's clone when it is already a git repository, otherwise
`clone --no-progress -- <url> <dir>` in the clone dir.  The source sets no
environment override on this command. -/
def download_pkg_command (git cloneDir url dir : String) (isGitRepo : Bool) : SpawnedCmd :=
  if isGitRepo then
    { program := git, cwd := cloneDir ++ "/" ++ dir, args := ["fetch", "-v"], env := [] }
  else
    { program := git, cwd := cloneDir,
      args := ["clone", "--no-progress", "--", url, dir], env := [] }

/-- Whether a spawned process has interactive terminal credential prompting
disabled (`GIT_TERMINAL_PROMPT=0` among its environment overrides). -/
def disablesPrompt (c : SpawnedCmd) : Bool :=
  c.env.contains ("GIT_TERMINAL_PROMPT", "0")

/-!
The download scheduler (`Fetch::download_repos_cb`, fetch.rs:153-208).

A unit of work is one repository: its name, whether its clone directory
already contained version-control metadata when the unit ran
(`is_git_repo`, the `fetched` boolean of `download_pkg`), whether the
clone/fetch process succeeded, and its captured output.  Workers send one
message per unit into the results channel; the order in which the single
consumer drains messages is the completion order, which concurrency leaves
nondeterministic, so it enters the model as an explicit `arrival` list
constrained in the theorems (a permutation of the input on an all-success
run).
-/

/-- One repository handed to the scheduler, with the outcome its unit of
work would have. -/
structure RepoJob where
  name : String
  present : Bool
  fetchOk : Bool
  out : String
  deriving DecidableEq

/-- The message a worker sends for one unit of work: `download_pkg`'s
`Ok((fetched, output))` tagged with the repository name, or its error. -/
def downloadMsg (r : RepoJob) : Except GitErr (String × Bool × String) :=
  if r.fetchOk then .ok (r.name, r.present, r.out)
  else .error (GitErr.cmdFailed r.name)

/-- The `Callback` record (callback.rs): package name, completion counter
`n`, captured output. -/
structure CbRec where
  pkg : String
  n : Nat
  output : String
  deriving DecidableEq

/-- The consumer loop of `download_repos_cb` (fetch.rs:194-204): drain
messages in arrival order; `msg?` returns the first drained error at once;
otherwise invoke the callback with counter `n + 1` and accumulate the
names whose unit reported `was_fetched`.  The returned pair is the list of
callback invocations made and the overall result. -/
def consumeLoop : Nat → List String → List CbRec →
    List (Except GitErr (String × Bool × String)) →
    List CbRec × Except GitErr (List String)
  | _, fetched, cbs, [] => (cbs.reverse, .ok fetched.reverse)
  | _, _, cbs, .error e :: _ => (cbs.reverse, .error e)
  | n, fetched, cbs, .ok (pkg, wasFetched, out) :: rest =>
    consumeLoop (n + 1) (if wasFetched then pkg :: fetched else fetched)
      ({ pkg := pkg, n := n + 1, output := out } :: cbs) rest

/-- `download_repos_cb` (fetch.rs:153): the consumer applied to the
messages in their completion (arrival) order. -/
def download_repos_cb (arrival : List RepoJob) : List CbRec × Except GitErr (List String) :=
  consumeLoop 0 [] [] (arrival.map downloadMsg)

/-- One worker's loop (fetch.rs:172-188) over the units it receives: check
the shared stop flag before starting a unit and stop if it is set; run
`download_pkg` and send the message; on failure set the flag, send the
error and stop.  Returns the messages this worker sent and the value of
the stop flag when it returned. -/
def workerRun : Bool → List RepoJob → List (Except GitErr (String × Bool × String)) × Bool
  | stop, [] => ([], stop)
  | stop, r :: rest =>
    if stop then ([], stop)
    else if r.fetchOk then
      let next := workerRun stop rest
      (downloadMsg r :: next.1, next.2)
    else ([downloadMsg r], true)

/-- The callback records the consumer produces for a run of consecutive
successful messages, starting after `n` earlier completions. -/
def mkCbs : Nat → List RepoJob → List CbRec
  | _, [] => []
  | n, r :: rest => { pkg := r.name, n := n + 1, output := r.out } :: mkCbs (n + 1) rest

/-- `countFrom s n`: the `n` consecutive naturals starting at `s`. -/
def countFrom : Nat → Nat → List Nat
  | _, 0 => []
  | s, n + 1 => s :: countFrom (s + 1) n

lemma mkCbs_length (arr : List RepoJob) : ∀ n, (mkCbs n arr).length = arr.length := by
  induction arr with
  | nil => intro n; rfl
  | cons r rest ih => intro n; simp [mkCbs, ih]

lemma mkCbs_map_n (arr : List RepoJob) :
    ∀ n, (mkCbs n arr).map (fun c => c.n) = countFrom (n + 1) arr.length := by
  induction arr with
  | nil => intro n; rfl
  | cons r rest ih => intro n; simp [mkCbs, countFrom, ih]

lemma mkCbs_map_pkg (arr : List RepoJob) :
    ∀ n, (mkCbs n arr).map (fun c => c.pkg) = arr.map (fun r => r.name) := by
  induction arr with
  | nil => intro n; rfl
  | cons r rest ih => intro n; simp [mkCbs, ih]

lemma mem_countFrom {x : Nat} : ∀ {s n : Nat}, x ∈ countFrom s n → s ≤ x := by
  intro s n
  induction n generalizing s with
  | zero => intro h; simp [countFrom] at h
  | succ m ih =>
    intro h
    simp only [countFrom, List.mem_cons] at h
    rcases h with h | h
    · omega
    · have := ih h; omega

lemma countFrom_pairwise_lt : ∀ s n, (countFrom s n).Pairwise (fun a b => a < b) := by
  intro s n
  induction n generalizing s with
  | zero => simp [countFrom]
  | succ m ih =>
    refine List.Pairwise.cons ?_ (ih (s + 1))
    intro b hb
    have := mem_countFrom hb
    omega

lemma consumeLoop_all_ok (arr : List RepoJob) :
    ∀ n fetched cbs, (∀ r ∈ arr, r.fetchOk = true) →
      consumeLoop n fetched cbs (arr.map downloadMsg) =
        (cbs.reverse ++ mkCbs n arr,
          .ok (fetched.reverse ++ (arr.filter (fun r => r.present)).map (fun r => r.name))) := by
  induction arr with
  | nil => intro n fetched cbs _; simp [consumeLoop, mkCbs]
  | cons r rest ih =>
    intro n fetched cbs hok
    have hr : r.fetchOk = true := hok r (by simp)
    have hrest : ∀ q ∈ rest, q.fetchOk = true := fun q hq => hok q (by simp [hq])
    have hmsg : downloadMsg r = .ok (r.name, r.present, r.out) := by
      simp [downloadMsg, hr]
    rw [List.map_cons, hmsg, consumeLoop, ih _ _ _ hrest]
    cases hp : r.present <;>
      simp [mkCbs, List.filter_cons, hp, List.append_assoc]

lemma consumeLoop_first_error (pre : List RepoJob) (e : GitErr)
    (rest : List (Except GitErr (String × Bool × String))) :
    ∀ n fetched cbs, (∀ r ∈ pre, r.fetchOk = true) →
      (consumeLoop n fetched cbs (pre.map downloadMsg ++ .error e :: rest)).2 = .error e := by
  induction pre with
  | nil => intro n fetched cbs _; simp [consumeLoop]
  | cons r tail ih =>
    intro n fetched cbs hok
    have hr : r.fetchOk = true := hok r (by simp)
    have htail : ∀ q ∈ tail, q.fetchOk = true := fun q hq => hok q (by simp [hq])
    have hmsg : downloadMsg r = .ok (r.name, r.present, r.out) := by
      simp [downloadMsg, hr]
    rw [List.map_cons, hmsg, List.cons_append, consumeLoop]
    exact ih _ _ _ htail

/-- A concrete repository state that the claim instances below specialise. -/
def baseRepo : RepoState :=
  { head := 0, seen := none, upstream := none, anc := fun a b => a == b,
    ftree := fun t => t + 10, mergedTree := fun a b => a + b, emptyTree := 0,
    merged := false, mergeOk := true, dirty := false,
    hasUserName := false, hasUserEmail := false }

lemma workerRun_stops_at_failure (pre : List RepoJob) (bad : RepoJob) (post : List RepoJob) :
    (∀ r ∈ pre, r.fetchOk = true) → bad.fetchOk = false →
      workerRun false (pre ++ bad :: post) =
        (pre.map downloadMsg ++ [.error (GitErr.cmdFailed bad.name)], true) := by
  induction pre with
  | nil =>
    intro _ hbad
    simp [workerRun, hbad, downloadMsg]
  | cons r tail ih =>
    intro hok hbad
    have hr : r.fetchOk = true := hok r (by simp)
    have htail : ∀ q ∈ tail, q.fetchOk = true := fun q hq => hok q (by simp [hq])
    rw [List.cons_append, workerRun, ih htail hbad]
    simp [hr]

/-- Repository used against claim C1: checked out at commit 1, seen marker
at commit 2, upstream at commit 3, and a conflicting merge. -/
def stC1 : RepoState :=
  { baseRepo with head := 1, seen := some 2, upstream := some 3, mergeOk := false }

/-- Claim C1 counterexample: when the non-committing merge step fails,
`git_diff` propagates the failure without running the restoring reset, so
the checked-out commit after the call (commit 2, the seen marker) differs
from the saved head (commit 1); `show_git_diff` behaves the same. -/
theorem c1_restore_counterexample :
    (git_diff stC1).1.head ≠ stC1.head ∧ isOkE (git_diff stC1).2 = false ∧
    (show_git_diff stC1).1.head ≠ stC1.head ∧ isOkE (show_git_diff stC1).2 = false := by
  refine ⟨by decide, rfl, by decide, rfl⟩

/-- Claim C1 as amended: the restoring hard reset to `saved_head` runs only
once every earlier step has succeeded.  HEAD equals `saved_head` after
every successful call of either diff variant, and on any outcome when no
seen marker exists (that branch never moves HEAD); but when a seen marker
exists and the merge or diff step fails, the error propagates without the
restoring reset and HEAD is left at the seen marker's commit. -/
theorem c1_restore_amended (s : RepoState) :
    (isOkE (git_diff s).2 = true → (git_diff s).1.head = s.head)
  ∧ (s.seen = none → (git_diff s).1.head = s.head)
  ∧ (∀ v, s.seen = some v → isOkE (git_diff s).2 = false → (git_diff s).1.head = v)
  ∧ (isOkE (show_git_diff s).2 = true → (show_git_diff s).1.head = s.head)
  ∧ (s.seen = none → (show_git_diff s).1.head = s.head)
  ∧ (∀ v, s.seen = some v → isOkE (show_git_diff s).2 = false →
      (show_git_diff s).1.head = v) := by
  rcases hs : s.seen with _ | v <;> rcases hu : s.upstream with _ | u <;>
    cases hm : s.mergeOk <;>
    simp [git_diff, show_git_diff, git_head, resetHard, mergeUpstream, isOkE, hs, hu, hm]

/-- Claim C1 witness: on the conflicting-merge state the amended theorem
puts HEAD at the seen marker (commit 2) after the failing call. -/
theorem c1_restore_witness : (git_diff stC1).1.head = 2 :=
  (c1_restore_amended stC1).2.2.1 2 rfl rfl

/-- Claim C2: `git_command` and `show_git_command` disable interactive
terminal credential prompting on every invocation they spawn, but the
clone/fetch command `download_pkg` builds for the scheduler's workers —
the only invocation that contacts the network — sets no such override. -/
theorem c2_terminal_prompt (git cwd cloneDir url dir : String)
    (flags args : List String) :
    disablesPrompt (git_command git cwd flags args) = true
  ∧ disablesPrompt (show_git_command git cwd flags args) = true
  ∧ disablesPrompt (download_pkg_command git cloneDir url dir true) = false
  ∧ disablesPrompt (download_pkg_command git cloneDir url dir false) = false := by
  refine ⟨rfl, rfl, rfl, rfl⟩

/-- Claim C5 counterexample state: seen marker present, upstream
unresolvable. -/
def stC5 : RepoState := { baseRepo with head := 1, seen := some 1 }

/-- Claim C5 counterexample: with a seen marker and an unresolvable
upstream reference, `git_has_diff` propagates the `rev-parse` command
failure instead of treating it as "no diff". -/
theorem c5_has_diff_counterexample :
    git_has_diff stC5 = .error (GitErr.cmdFailed "rev-parse") ∧
    git_has_diff stC5 ≠ .ok false :=
  ⟨rfl, by simp [git_has_diff, stC5, baseRepo]⟩

/-- Claim C5 as amended: `git_has_diff` returns false when no seen marker
exists; with a seen marker and a resolvable upstream it returns whether
the marker's target differs from the upstream target; but with a seen
marker and an unresolvable upstream it returns the propagated command
failure rather than "no diff". -/
theorem c5_has_diff_amended (s : RepoState) :
    (s.seen = none → git_has_diff s = .ok false)
  ∧ (∀ v u, s.seen = some v → s.upstream = some u → git_has_diff s = .ok (v != u))
  ∧ (∀ v, s.seen = some v → s.upstream = none →
      git_has_diff s = .error (GitErr.cmdFailed "rev-parse")) := by
  refine ⟨fun h => by simp [git_has_diff, h],
    fun v u hv hu => by simp [git_has_diff, hv, hu],
    fun v hv hu => by simp [git_has_diff, hv, hu]⟩

/-- Claim C5 witness state: seen marker and upstream both at commit 3. -/
def stC5w : RepoState := { baseRepo with head := 3, seen := some 3, upstream := some 3 }

/-- Claim C5 witness: with seen marker and upstream at the same commit the
amended theorem returns `Ok(false)`. -/
theorem c5_has_diff_witness : git_has_diff stC5w = .ok false :=
  (c5_has_diff_amended stC5w).2.1 3 3 rfl rfl

/-- Claim C6: `git_unseen` returns true exactly when no seen marker exists
or the upstream reference does not resolve to an ancestor of the seen
marker; with a seen marker whose upstream is an ancestor it returns
false. -/
theorem c6_unseen_iff (s : RepoState) :
    git_unseen s = true ↔
      (s.seen = none ∨
        ¬ ∃ v u, s.seen = some v ∧ s.upstream = some u ∧ s.anc u v = true) := by
  rcases hs : s.seen with _ | v <;> rcases hu : s.upstream with _ | u <;>
    simp [git_unseen, git_has_seen, isAncestorOk, hs, hu]

/-- Claim C6 witness: on the base state, which has no seen marker,
`git_unseen` returns true. -/
theorem c6_unseen_witness : git_unseen baseRepo = true :=
  (c6_unseen_iff baseRepo).mpr (Or.inl rfl)

/-- Claim C7 counterexample state: HEAD at commit 1, upstream already
fetched ahead at commit 2, no merge done yet. -/
def stC7 : RepoState := { baseRepo with head := 1, upstream := some 2 }

/-- Claim C7 counterexample: `mark_seen` moves the seen marker to the
current HEAD, so on a repository whose HEAD is behind the fetched
upstream, `has_diff` and `is_unseen` are both still true immediately after
`mark_seen`, contradicting the claim's unconditional statement. -/
theorem c7_mark_seen_counterexample :
    git_has_diff (git_mark_seen stC7) = .ok true ∧
    git_unseen (git_mark_seen stC7) = true :=
  ⟨rfl, rfl⟩

/-- Claim C7 as amended: when at `mark_seen` time the upstream reference
resolves to the current HEAD (the state after merging, which persists
until a new fetch moves upstream), `has_diff` and `is_unseen` are false
immediately after `mark_seen`, and they remain false in every later state
whose seen marker and upstream reference still point at that commit. -/
theorem c7_mark_seen_amended (s : RepoState)
    (hup : s.upstream = some s.head) (hrefl : s.anc s.head s.head = true) :
    git_has_diff (git_mark_seen s) = .ok false
  ∧ git_unseen (git_mark_seen s) = false
  ∧ (∀ t : RepoState, t.seen = some s.head → t.upstream = some s.head →
      t.anc s.head s.head = true → git_has_diff t = .ok false ∧ git_unseen t = false) := by
  refine ⟨?_, ?_, ?_⟩
  · simp [git_has_diff, git_mark_seen, hup]
  · simp [git_unseen, git_has_seen, git_mark_seen, isAncestorOk, hup, hrefl]
  · intro t h1 h2 h3
    exact ⟨by simp [git_has_diff, h1, h2],
      by simp [git_unseen, git_has_seen, isAncestorOk, h1, h2, h3]⟩

/-- Claim C7 witness state: a merged repository, HEAD and upstream both at
commit 4. -/
def stC7w : RepoState := { baseRepo with head := 4, upstream := some 4 }

/-- Claim C7 witness: after `mark_seen` on the merged state, `has_diff`
reports no diff. -/
theorem c7_mark_seen_witness : git_has_diff (git_mark_seen stC7w) = .ok false :=
  (c7_mark_seen_amended stC7w rfl rfl).1

/-- Semantics of the log output `range base tip` of `git log base..tip`:
it prints no commits exactly when `tip` is already reachable from `base`
(is an ancestor of it, `tip = base` included, is-ancestor being
reflexive). -/
def logIsEmpty (s : RepoState) : LogOut → Bool
  | .range base tip => s.anc tip base

/-- Whether the log output `range base tip` of `git log base..tip` lists a
given commit: the commit must be reachable from `tip` and not from
`base`. -/
def logContains (s : RepoState) (c : Nat) : LogOut → Bool
  | .range base tip => s.anc c tip && !(s.anc c base)

/-- State for claim C8: a fresh clone already up to date with upstream
(HEAD = upstream = commit 1), package tree 7, no seen marker. -/
def stC8 : RepoState :=
  { baseRepo with head := 1, upstream := some 1, ftree := fun _ => 7 }

/-- Claim C8 counterexample: with no seen marker the log the code produces
is `log ..HEAD@\x7bu\x7d`, i.e. the commits reachable from upstream but
NOT from HEAD — not "the log of all commits up to upstream".  On a clone
already up to date with upstream (HEAD = upstream = commit 1) that log is
empty: it does not even list the upstream commit itself. -/
theorem c8_log_counterexample :
    git_log stC8 = .ok (LogOut.range 1 1)
  ∧ logIsEmpty stC8 (LogOut.range 1 1) = true
  ∧ logContains stC8 1 (LogOut.range 1 1) = false :=
  ⟨rfl, rfl, rfl⟩

/-- Claim C8 as amended: with no seen marker, `git_diff` takes the
never-reviewed branch: it diffs from the well-known empty tree to the
upstream commit's tree (restoring HEAD afterwards), and this diff is
non-empty whenever the package's metadata-filtered tree is not the empty
tree — the compared trees do not involve HEAD, so in particular also when
the clone is already checked out at the upstream commit; the accompanying
log, however, is `log ..HEAD@\x7bu\x7d`, the commits reachable from
upstream and not from HEAD, which is empty (not the full history) whenever
upstream is already reachable from HEAD. -/
theorem c8_empty_tree_amended (s : RepoState) (u : Nat)
    (hseen : s.seen = none) (hup : s.upstream = some u)
    (hne : s.ftree u ≠ s.emptyTree) :
    (git_diff s).2 = .ok (DiffOut.between s.emptyTree (s.ftree u))
  ∧ diffNonEmpty (DiffOut.between s.emptyTree (s.ftree u)) = true
  ∧ (git_diff s).1 = resetHard s s.head
  ∧ git_log s = .ok (LogOut.range s.head u)
  ∧ (s.anc u s.head = true → logIsEmpty s (LogOut.range s.head u) = true) := by
  refine ⟨?_, ?_, ?_, ?_, ?_⟩
  · simp [git_diff, git_head, hseen, hup]
  · simpa [diffNonEmpty, bne_iff_ne] using Ne.symm hne
  · simp [git_diff, git_head, hseen, hup]
  · simp [git_log, hup]
  · intro h
    simpa [logIsEmpty] using h

/-- Claim C8 witness: on the up-to-date fresh clone the diff is the
empty-tree-to-upstream diff (non-empty), while the log that comes with it
is empty. -/
theorem c8_empty_tree_witness :
    (git_diff stC8).2 = .ok (DiffOut.between 0 7)
  ∧ logIsEmpty stC8 (LogOut.range 1 1) = true :=
  ⟨(c8_empty_tree_amended stC8 1 rfl rfl (by decide)).1,
    (c8_empty_tree_amended stC8 1 rfl rfl (by decide)).2.2.2.2 rfl⟩

/-- Claim C10: `git_commit` makes no commit when the working tree has no
uncommitted changes; with changes it commits using the caller's message
when both `user.name` and `user.email` are configured, and otherwise
commits under the fallback `aur`/`aur` identity with the fixed message
"AUR", ignoring the caller's message. -/
theorem c10_commit_message (s : RepoState) (message : String) :
    (s.dirty = false → git_commit s message = none)
  ∧ (s.dirty = true → (s.hasUserName && s.hasUserEmail) = true →
      git_commit s message = some message)
  ∧ (s.dirty = true → (s.hasUserName && s.hasUserEmail) = false →
      git_commit s message = some "AUR") := by
  refine ⟨fun h => by simp [git_commit, h],
    fun h1 h2 => by simp [git_commit, h1, h2],
    fun h1 h2 => by simp [git_commit, h1, h2]⟩

/-- Claim C10 witness state: uncommitted changes, `user.email` configured
but `user.name` missing. -/
def stC10 : RepoState := { baseRepo with dirty := true, hasUserEmail := true }

/-- Claim C10 witness: without a full configured identity the commit uses
the fixed message "AUR" even though the caller passed "update". -/
theorem c10_commit_witness : git_commit stC10 "update" = some "AUR" :=
  (c10_commit_message stC10 "update").2.2 rfl rfl

/-- Claim C3: on a successful run (every unit of work succeeds, drained in
some completion order `arrival` that permutes the input), the value
`download_repos_cb` returns is exactly the list of input names whose clone
directory already contained version-control metadata when their unit ran,
in completion order — never a freshly cloned name. -/
theorem c3_fetched_are_preexisting (repos arrival : List RepoJob)
    (hperm : arrival.Perm repos) (hok : ∀ r ∈ repos, r.fetchOk = true) :
    (download_repos_cb arrival).2 =
      .ok ((arrival.filter (fun r => r.present)).map (fun r => r.name))
  ∧ ∀ nm, nm ∈ (arrival.filter (fun r => r.present)).map (fun r => r.name) ↔
      ∃ r ∈ repos, r.present = true ∧ r.name = nm := by
  have hok2 : ∀ r ∈ arrival, r.fetchOk = true := fun r hr => hok r (hperm.mem_iff.mp hr)
  constructor
  · have h := consumeLoop_all_ok arrival 0 [] [] hok2
    simpa [download_repos_cb] using congrArg Prod.snd h
  · intro nm
    constructor
    · intro h
      rcases List.mem_map.mp h with ⟨r, hrf, hname⟩
      rcases List.mem_filter.mp hrf with ⟨hra, hp⟩
      exact ⟨r, hperm.mem_iff.mp hra, by simpa using hp, hname⟩
    · rintro ⟨r, hrr, hp, hname⟩
      exact List.mem_map.mpr
        ⟨r, List.mem_filter.mpr ⟨hperm.mem_iff.mpr hrr, by simp [hp]⟩, hname⟩

/-- Claim C3 witness: downloading a single repository that is not yet
present (a fresh clone) returns the empty already-present list. -/
theorem c3_fresh_clone_witness :
    (download_repos_cb
      [{ name := "pkg-a", present := false, fetchOk := true, out := "" }]).2 = .ok [] :=
  (c3_fetched_are_preexisting
      [{ name := "pkg-a", present := false, fetchOk := true, out := "" }]
      [{ name := "pkg-a", present := false, fetchOk := true, out := "" }]
      (List.Perm.refl _) (by decide)).1

/-- Claim C4: when a unit of work fails (the first failure `bad` drained
after the successful units `pre`), the consumer returns that first drained
error as the overall result and no already-present list reaches the
caller; the failing worker stops after sending the error and leaves the
shared cancellation flag set, having started none of the units queued
after the failure; and a worker that observes the flag set starts no unit
of work at all. -/
theorem c4_first_error_cancels (pre post : List RepoJob) (bad : RepoJob)
    (queue : List RepoJob)
    (hpre : ∀ r ∈ pre, r.fetchOk = true) (hbad : bad.fetchOk = false) :
    (download_repos_cb (pre ++ bad :: post)).2 = .error (GitErr.cmdFailed bad.name)
  ∧ (∀ l, (download_repos_cb (pre ++ bad :: post)).2 ≠ .ok l)
  ∧ workerRun false (pre ++ bad :: post) =
      (pre.map downloadMsg ++ [.error (GitErr.cmdFailed bad.name)], true)
  ∧ workerRun true queue = ([], true) := by
  have hmsg : downloadMsg bad = .error (GitErr.cmdFailed bad.name) := by
    simp [downloadMsg, hbad]
  have hfirst : (download_repos_cb (pre ++ bad :: post)).2 =
      .error (GitErr.cmdFailed bad.name) := by
    have h := consumeLoop_first_error pre (GitErr.cmdFailed bad.name)
      (post.map downloadMsg) 0 [] [] hpre
    simpa [download_repos_cb, hmsg] using h
  refine ⟨hfirst, ?_, workerRun_stops_at_failure pre bad post hpre hbad, ?_⟩
  · intro l h
    rw [hfirst] at h
    exact Except.noConfusion h
  · cases queue <;> simp [workerRun]

/-- Claim C4 witness: a batch whose only unit fails returns that unit's
error. -/
theorem c4_error_witness :
    (download_repos_cb
      [{ name := "pkg-x", present := false, fetchOk := false, out := "" }]).2 =
      .error (GitErr.cmdFailed "pkg-x") :=
  (c4_first_error_cancels []
      [] { name := "pkg-x", present := false, fetchOk := false, out := "" } []
      (by decide) rfl).1

/-- Claim C9: on a successful run over `N` repositories (drained in a
completion order `arrival` permuting the input), the callback is invoked
exactly `N` times, once per completed unit in drain order, and the counter
`n` it carries takes the values `1..N` in that order, strictly
increasing. -/
theorem c9_callback_sequence (repos arrival : List RepoJob)
    (hperm : arrival.Perm repos) (hok : ∀ r ∈ repos, r.fetchOk = true) :
    (download_repos_cb arrival).1.length = repos.length
  ∧ (download_repos_cb arrival).1.map (fun c => c.pkg) = arrival.map (fun r => r.name)
  ∧ (download_repos_cb arrival).1.map (fun c => c.n) = countFrom 1 repos.length
  ∧ ((download_repos_cb arrival).1.map (fun c => c.n)).Pairwise (fun a b => a < b) := by
  have hok2 : ∀ r ∈ arrival, r.fetchOk = true := fun r hr => hok r (hperm.mem_iff.mp hr)
  have hcb : (download_repos_cb arrival).1 = mkCbs 0 arrival := by
    have h := consumeLoop_all_ok arrival 0 [] [] hok2
    simpa [download_repos_cb] using congrArg Prod.fst h
  have hlen := hperm.length_eq
  refine ⟨?_, ?_, ?_, ?_⟩
  · rw [hcb, mkCbs_length, hlen]
  · rw [hcb, mkCbs_map_pkg]
  · rw [hcb, mkCbs_map_n, hlen]
  · rw [hcb, mkCbs_map_n]
    exact countFrom_pairwise_lt 1 arrival.length

/-- Claim C9 witness: one repository, one callback, carrying counter 1. -/
theorem c9_callback_witness :
    (download_repos_cb [{ name := "a", present := true, fetchOk := true, out := "o" }]).1.map
      (fun c => c.n) = [1] :=
  (c9_callback_sequence
      [{ name := "a", present := true, fetchOk := true, out := "o" }]
      [{ name := "a", present := true, fetchOk := true, out := "o" }]
      (List.Perm.refl _) (by decide)).2.2.1
